import Mathlib

/-
Verification development for the `mop`/`icarus` modular rig-building framework
(`src/core/rig.py`, class `Rig`).

The scene-graph host (Maya's `cmds`) is modelled at the interface contract
level: a scene is a list of node records, each carrying the attributes the
`Rig` code reads and writes (the `is_build_node` marker, `visibility`,
and the three serialized customization blobs).  External collaborators
(module `_build` bodies, the hook runner, the space-switching service and
the shape/attribute-state codecs) are parameters: each is modelled by the
set of nodes it creates or the string it captures, which is exactly the
part of its behaviour `Rig`'s own logic depends on.

`json.loads` is modelled by an executable recursive-descent JSON reader
(`json_loads`) over objects, arrays, strings, integers, booleans and null;
objects keep their key order (the code parses with
`object_pairs_hook=OrderedDict` precisely to preserve parent ordering).
Python reports malformed input by raising, which is modelled as
`Except.error`; numeric literals are modelled as integers only, which
covers every blob the `Rig` code round-trips.
-/

/-- JSON values as produced by `json.loads` with `object_pairs_hook=OrderedDict`:
objects are order-preserving association lists. -/
inductive JValue where
  | jnull : JValue
  | jbool : Bool → JValue
  | jnum : Int → JValue
  | jstr : String → JValue
  | jarr : List JValue → JValue
  | jobj : List (String × JValue) → JValue

/-- Whitespace skipping, as the Python parser does between tokens. -/
def skipWs : List Char → List Char
  | [] => []
  | c :: rest => if c = ' ' ∨ c = '\n' ∨ c = '\t' ∨ c = '\r' then skipWs rest else c :: rest

/-- Translate a backslash escape inside a JSON string ( \n, \t, \" , \\ , / ). -/
def jUnescape (c : Char) : Char :=
  if c = 'n' then '\n' else if c = 't' then '\t' else if c = 'r' then '\r' else c

/-- Read the body of a JSON string after the opening quote; returns the
content and the remaining input past the closing quote. -/
def jstrChars : List Char → Option (List Char × List Char)
  | [] => none
  | c :: rest =>
    if c = '"' then some ([], rest)
    else if c = '\\' then
      match rest with
      | [] => none
      | e :: rest2 =>
        match jstrChars rest2 with
        | none => none
        | some (s, r) => some (jUnescape e :: s, r)
    else
      match jstrChars rest with
      | none => none
      | some (s, r) => some (c :: s, r)

/-- Read a run of decimal digits. -/
def jdigits : List Char → (List Char × List Char)
  | [] => ([], [])
  | c :: rest =>
    if c.isDigit then
      let (ds, r) := jdigits rest
      (c :: ds, r)
    else ([], c :: rest)

/-- Digits to a natural number. -/
def jdigitsVal (ds : List Char) : Nat :=
  ds.foldl (fun acc c => acc * 10 + (c.toNat - 48)) 0

mutual

/-- One JSON value.  `fuel` bounds the recursion depth; every recursive call
strictly consumes input, so any fuel larger than the input length is enough. -/
def jparse : Nat → List Char → Option (JValue × List Char)
  | 0, _ => none
  | fuel + 1, cs =>
    match skipWs cs with
    | [] => none
    | c :: rest =>
      if c = 'n' then
        match rest with
        | 'u' :: 'l' :: 'l' :: r => some (JValue.jnull, r)
        | _ => none
      else if c = 't' then
        match rest with
        | 'r' :: 'u' :: 'e' :: r => some (JValue.jbool true, r)
        | _ => none
      else if c = 'f' then
        match rest with
        | 'a' :: 'l' :: 's' :: 'e' :: r => some (JValue.jbool false, r)
        | _ => none
      else if c = '"' then
        match jstrChars rest with
        | none => none
        | some (s, r) => some (JValue.jstr (String.mk s), r)
      else if c = '-' then
        match jdigits rest with
        | ([], _) => none
        | (ds, r) => some (JValue.jnum (-(jdigitsVal ds : Int)), r)
      else if c.isDigit then
        match jdigits (c :: rest) with
        | ([], _) => none
        | (ds, r) => some (JValue.jnum (jdigitsVal ds : Int), r)
      else if c = '[' then
        match skipWs rest with
        | ']' :: r => some (JValue.jarr [], r)
        | cs2 =>
          match jparseArr fuel cs2 with
          | none => none
          | some (xs, r) => some (JValue.jarr xs, r)
      else if c = '{' then
        match skipWs rest with
        | '}' :: r => some (JValue.jobj [], r)
        | cs2 =>
          match jparseObj fuel cs2 with
          | none => none
          | some (fs, r) => some (JValue.jobj fs, r)
      else none

/-- Comma-separated JSON values up to a closing bracket. -/
def jparseArr : Nat → List Char → Option (List JValue × List Char)
  | 0, _ => none
  | fuel + 1, cs =>
    match jparse fuel cs with
    | none => none
    | some (v, r) =>
      match skipWs r with
      | ',' :: r2 =>
        match jparseArr fuel r2 with
        | none => none
        | some (xs, r3) => some (v :: xs, r3)
      | ']' :: r2 => some ([v], r2)
      | _ => none

/-- Comma-separated `"key": value` pairs up to a closing brace. -/
def jparseObj : Nat → List Char → Option (List (String × JValue) × List Char)
  | 0, _ => none
  | fuel + 1, cs =>
    match skipWs cs with
    | '"' :: rest =>
      match jstrChars rest with
      | none => none
      | some (k, r) =>
        match skipWs r with
        | ':' :: r2 =>
          match jparse fuel r2 with
          | none => none
          | some (v, r3) =>
            match skipWs r3 with
            | ',' :: r4 =>
              match jparseObj fuel r4 with
              | none => none
              | some (fs, r5) => some ((String.mk k, v) :: fs, r5)
            | '}' :: r4 => some ([(String.mk k, v)], r4)
            | _ => none
        | _ => none
    | _ => none

end

/-- Model of Python `json.loads`: parse the whole input or raise
(`Except.error`), exactly the two outcomes the calling code can observe. -/
def json_loads (s : String) : Except String JValue :=
  match jparse (s.length + 2) s.data with
  | none => Except.error ("json.loads: invalid JSON")
  | some (v, rest) =>
    match skipWs rest with
    | [] => Except.ok v
    | _ => Except.error ("json.loads: extra data")

/-- Python truthiness of a decoded JSON value (`if parents:` in the source). -/
def pyTruthy : JValue → Bool
  | JValue.jnull => false
  | JValue.jbool b => b
  | JValue.jnum n => decide (n ≠ 0)
  | JValue.jstr s => decide (s ≠ "")
  | JValue.jarr [] => false
  | JValue.jarr (_ :: _) => true
  | JValue.jobj [] => false
  | JValue.jobj (_ :: _) => true

/-- `dict.get key fallback` on a decoded object.  An `OrderedDict` built from
pairs keeps the last binding of a repeated key, hence the reversed lookup. -/
def jobjGet (fields : List (String × JValue)) (key : String) (fallback : JValue) : JValue :=
  match fields.reverse.find? (fun kv => kv.fst = key) with
  | some kv => kv.snd
  | none => fallback

/-- A scene node together with the attributes `Rig` reads or writes:
the `is_build_node` marker (presence of the attribute), `visibility`,
and the three serialized customization blobs stored as string attributes
(`none` models an unset string attribute, which is falsy in Python). -/
structure SceneNode where
  nid : Nat
  is_build_node : Bool
  visibility : Bool
  attributes_state : Option String
  parent_space_data : Option String
  shape_data : Option String
deriving DecidableEq

/-- All node names in the scene (`cmds.ls('*')`). -/
def node_ids (scene : List SceneNode) : List Nat :=
  scene.map SceneNode.nid

/-- Name lookup (`cmds.objExists` / attribute access by node name). -/
def getNode (scene : List SceneNode) (i : Nat) : Option SceneNode :=
  scene.find? (fun n => n.nid = i)

/-- `cmds.setAttr(node + '.visibility', v)`. -/
def setVisibility (i : Nat) (v : Bool) (scene : List SceneNode) : List SceneNode :=
  scene.map (fun n => if n.nid = i then { n with visibility := v } else n)

/-- `cmds.setAttr(node + '.attributes_state', s, type='string')`. -/
def setAttrStateBlob (i : Nat) (s : String) (scene : List SceneNode) : List SceneNode :=
  scene.map (fun n => if n.nid = i then { n with attributes_state := some s } else n)

/-- `cmds.setAttr(node + '.shape_data', s, type='string')`. -/
def setShapeBlob (i : Nat) (s : String) (scene : List SceneNode) : List SceneNode :=
  scene.map (fun n => if n.nid = i then { n with shape_data := some s } else n)

/-- `Rig.build_nodes`: the name of every scene node carrying the
`is_build_node` marker attribute (`cmds.attributeQuery(..., exists=True)`). -/
def build_nodes (scene : List SceneNode) : List Nat :=
  (scene.filter (fun n => n.is_build_node)).map SceneNode.nid

/-- `Rig._tag_nodes_for_unbuild`: add the boolean `is_build_node` attribute
(default value `True`) to each of the given nodes. -/
def tag_nodes_for_unbuild (nodes : List Nat) (scene : List SceneNode) : List SceneNode :=
  scene.map (fun n => if n.nid ∈ nodes then { n with is_build_node := true } else n)

/-- One rig module as `Rig` sees it: the node name, the weak
`parent_module` reference (by the parent module's node name), the
`parent_joint` / `deform_joints` fields used by `delete_module`, the
controller node names, the placement group node and the module's own
`is_built` flag. -/
structure MopModule where
  node_name : Nat
  parent_mod : Option Nat
  parent_joint : Option Nat
  deform_joints : List Nat
  controllers : List Nat
  placement_group : Nat
  is_built : Bool
deriving DecidableEq

/-- The rig's state: its `is_built` flag, the modules under the MODULES
group, and the scene. -/
structure RigState where
  is_built : Bool
  modules : List MopModule
  scene : List SceneNode
deriving DecidableEq

/-- Resolution of a module's `parent_module` attribute: the referenced node
is wrapped in a module instance for the node of that name (instances compare
by node identity, cf. spec section 3: the reference "points to another
Module's defining node"). -/
def mopParent (modules : List MopModule) (m : MopModule) : Option MopModule :=
  match m.parent_mod with
  | none => none
  | some p => modules.find? (fun x => x.node_name = p)

/-- `Rig.sort_parent_module`: place the module's parent chain (recursively,
removing each parent from the working list) before the module itself.
Each recursive call first removes the parent from `modules`, so the
recursion depth is bounded by the length of `modules`; `fuel` makes that
bound explicit (any fuel above `modules.length` never reaches 0). -/
def sort_parent_module {α : Type} [DecidableEq α] (parent : α → Option α) :
    Nat → α → List α → List α → List α × List α
  | 0, module, modules, sorted_modules => (modules, sorted_modules ++ [module])
  | fuel + 1, module, modules, sorted_modules =>
    match parent module with
    | some p =>
      if p ∈ modules then
        let r := sort_parent_module parent fuel p (modules.erase p) sorted_modules
        (r.1, r.2 ++ [module])
      else (modules, sorted_modules ++ [module])
    | none => (modules, sorted_modules ++ [module])

/-- The `while modules:` loop of `Rig.rig_modules`: pop the last module of
the working list and sort its chain in.  Every iteration strictly shrinks
the working list (the pop removes one element and `sort_parent_module`
only erases more), so fuel equal to the initial length is exact. -/
def rig_modules_loop {α : Type} [DecidableEq α] (parent : α → Option α) :
    Nat → List α → List α → List α
  | 0, _, sorted_modules => sorted_modules
  | fuel + 1, modules, sorted_modules =>
    match modules.getLast? with
    | none => sorted_modules
    | some module =>
      let r := sort_parent_module parent modules.length module modules.dropLast sorted_modules
      rig_modules_loop parent fuel r.1 r.2

/-- `Rig.rig_modules`: the modules of the rig in dependency-sorted order. -/
def rig_modules {α : Type} [DecidableEq α] (parent : α → Option α) (modules : List α) : List α :=
  rig_modules_loop parent modules.length modules []

/-- `k`-fold application of the `parent_module` relation. -/
def parentIter {α : Type} (parent : α → Option α) : Nat → α → Option α
  | 0, m => some m
  | k + 1, m =>
    match parent m with
    | none => none
    | some p => parentIter parent k p

/-- `a` is a strict ancestor of `b` along the `parent_module` chain. -/
def StrictAnc {α : Type} (parent : α → Option α) (a b : α) : Prop :=
  ∃ k, parentIter parent (k + 1) b = some a

/-- Along an acyclic (ranked) parent relation, iterating `parent` never
increases the rank. -/
theorem parentIter_rank_le {α : Type} (parent : α → Option α) (rank : α → Nat)
    (Hrank : ∀ m p, parent m = some p → rank p < rank m) :
    ∀ k m a, parentIter parent k m = some a → rank a ≤ rank m := by
  intro k
  induction k with
  | zero =>
    intro m a h
    simp only [parentIter, Option.some.injEq] at h
    exact h ▸ Nat.le_refl _
  | succ k ih =>
    intro m a h
    cases hp : parent m with
    | none => simp [parentIter, hp] at h
    | some p =>
      simp only [parentIter, hp] at h
      exact Nat.le_trans (ih p a h) (Nat.le_of_lt (Hrank m p hp))

/-- Along an acyclic (ranked) parent relation, at least one step strictly
decreases the rank. -/
theorem parentIter_rank_lt {α : Type} (parent : α → Option α) (rank : α → Nat)
    (Hrank : ∀ m p, parent m = some p → rank p < rank m) :
    ∀ k m a, parentIter parent (k + 1) m = some a → rank a < rank m := by
  intro k m a h
  cases hp : parent m with
  | none => simp [parentIter, hp] at h
  | some p =>
    simp only [parentIter, hp] at h
    exact Nat.lt_of_le_of_lt (parentIter_rank_le parent rank Hrank k p a h) (Hrank m p hp)

/-- Extending a parent chain by one more parent step at the far end. -/
theorem parentIter_snoc {α : Type} (parent : α → Option α) :
    ∀ k b m p, parentIter parent k b = some m → parent m = some p →
      parentIter parent (k + 1) b = some p := by
  intro k
  induction k with
  | zero =>
    intro b m p h hp
    simp only [parentIter, Option.some.injEq] at h
    subst h
    simp [parentIter, hp]
  | succ k ih =>
    intro b m p h hp
    cases hq : parent b with
    | none => simp [parentIter, hq] at h
    | some q =>
      simp only [parentIter, hq] at h ⊢
      exact ih q m p h hp

/-- The invariant carried through the sorter: every already-placed module
has its parent placed strictly before it, unless that parent is still in
the working list `ms` or in flight on the recursion stack `F` — in which
case nothing is claimed yet.  (`List.Sublist [p, m] s` says `p` occurs
before `m` in `s`.) -/
def SortInv {α : Type} (parent : α → Option α) (ms s F : List α) : Prop :=
  ∀ m ∈ s, ∀ p, parent m = some p → (p ∈ ms ∨ p ∈ s ∨ p ∈ F) → List.Sublist [p, m] s

theorem pair_sublist_append {α : Type} {p m : α} {s : List α} (h : p ∈ s) :
    List.Sublist [p, m] (s ++ [m]) :=
  List.Sublist.append (List.singleton_sublist.mpr h) (List.Sublist.refl [m])

theorem pair_sublist_extend {α : Type} {p m : α} {s t : List α}
    (h : List.Sublist [p, m] s) : List.Sublist [p, m] (s ++ t) :=
  h.trans (List.sublist_append_left s t)

/-- The working list only ever shrinks (by erasures) during chain placement. -/
theorem sort_parent_module_fst_sublist {α : Type} [DecidableEq α] (parent : α → Option α) :
    ∀ fuel module ms s,
      List.Sublist (sort_parent_module parent fuel module ms s).1 ms := by
  intro fuel
  induction fuel with
  | zero => intro module ms s; exact List.Sublist.refl ms
  | succ fuel ih =>
    intro module ms s
    cases hp : parent module with
    | none => simp only [sort_parent_module, hp]; exact List.Sublist.refl ms
    | some p =>
      by_cases hin : p ∈ ms
      · simp only [sort_parent_module, hp, if_pos hin]
        exact (ih p (ms.erase p) s).trans (List.erase_sublist p ms)
      · simp only [sort_parent_module, hp, if_neg hin]
        exact List.Sublist.refl ms

/-- Chain placement moves the placed modules from the working list into the
sorted list: the two components together are always a permutation of the
inputs plus the module being placed. -/
theorem sort_parent_module_perm {α : Type} [DecidableEq α] (parent : α → Option α) :
    ∀ fuel module ms s,
      ((sort_parent_module parent fuel module ms s).1 ++
        (sort_parent_module parent fuel module ms s).2).Perm (ms ++ (s ++ [module])) := by
  intro fuel
  induction fuel with
  | zero => intro module ms s; exact List.Perm.refl _
  | succ fuel ih =>
    intro module ms s
    cases hp : parent module with
    | none => simp only [sort_parent_module, hp]; exact List.Perm.refl _
    | some p =>
      by_cases hin : p ∈ ms
      · simp only [sort_parent_module, hp, if_pos hin]
        have h1 := ih p (ms.erase p) s
        have h2 : ((sort_parent_module parent fuel p (ms.erase p) s).1 ++
            ((sort_parent_module parent fuel p (ms.erase p) s).2 ++ [module])).Perm
            ((ms.erase p ++ (s ++ [p])) ++ [module]) := by
          rw [← List.append_assoc]
          exact h1.append_right _
        have h3 : ((ms.erase p ++ (s ++ [p])) ++ [module]).Perm
            (ms.erase p ++ (p :: (s ++ [module]))) := by
          have : (ms.erase p ++ (s ++ [p])) ++ [module]
              = ms.erase p ++ (s ++ (p :: [module])) := by simp [List.append_assoc]
          rw [this]
          exact List.Perm.append_left _ List.perm_middle
        have h4 : (ms.erase p ++ (p :: (s ++ [module]))).Perm
            (ms ++ (s ++ [module])) :=
          List.Perm.trans List.perm_middle
            (((List.perm_cons_erase hin).append_right _).symm)
        exact (h2.trans h3).trans h4
      · simp only [sort_parent_module, hp, if_neg hin]
        exact List.Perm.refl _

/-- Each iteration of the sorting loop conserves the modules: the loop's
output is a permutation of working list plus accumulator. -/
theorem rig_modules_loop_perm {α : Type} [DecidableEq α] (parent : α → Option α) :
    ∀ fuel ms s, ms.length ≤ fuel →
      (rig_modules_loop parent fuel ms s).Perm (ms ++ s) := by
  intro fuel
  induction fuel with
  | zero =>
    intro ms s hlen
    have hms : ms = [] := List.length_eq_zero.mp (Nat.le_zero.mp hlen)
    subst hms
    exact List.Perm.refl _
  | succ fuel ih =>
    intro ms s hlen
    cases hlast : ms.getLast? with
    | none =>
      have hms : ms = [] := List.getLast?_eq_none_iff.mp hlast
      subst hms
      simp only [rig_modules_loop, List.getLast?_nil]
      exact List.Perm.refl _
    | some module =>
      have hms : ms.dropLast ++ [module] = ms :=
        List.dropLast_append_getLast? module (Option.mem_def.mpr hlast)
      have hlen2 : ms.dropLast.length + 1 = ms.length := by
        conv_rhs => rw [← hms]
        simp
      have hfst := sort_parent_module_fst_sublist parent ms.length module ms.dropLast s
      have hlen3 :
          (sort_parent_module parent ms.length module ms.dropLast s).1.length ≤ fuel := by
        have := hfst.length_le
        omega
      simp only [rig_modules_loop, hlast]
      refine (ih _ _ hlen3).trans ?_
      refine (sort_parent_module_perm parent ms.length module ms.dropLast s).trans ?_
      have h5 : (ms.dropLast ++ (s ++ [module])).Perm (ms.dropLast ++ ([module] ++ s)) :=
        List.Perm.append_left _ List.perm_append_comm
      have h6 : ms.dropLast ++ ([module] ++ s) = ms ++ s := by
        rw [← List.append_assoc, hms]
      exact h6 ▸ h5

/-- `rig_modules` returns a permutation of the modules it is given —
unconditionally, whatever the parent relation does. -/
theorem rig_modules_perm {α : Type} [DecidableEq α] (parent : α → Option α)
    (modules : List α) : (rig_modules parent modules).Perm modules := by
  have h := rig_modules_loop_perm parent modules.length modules [] (Nat.le_refl _)
  simpa [rig_modules] using h

/-- Soundness of one chain placement under an acyclic (ranked) parent
relation: the ordering invariant survives, and the placed module ends up in
the sorted list.  `C` is the chain of modules in flight on the recursion
stack, each of which has `module` as a strict ancestor. -/
theorem sort_parent_module_sound {α : Type} [DecidableEq α] (parent : α → Option α)
    (rank : α → Nat) (Hrank : ∀ m p, parent m = some p → rank p < rank m) :
    ∀ fuel module ms s C, ms.length < fuel →
      (∀ c ∈ C, StrictAnc parent module c) →
      SortInv parent ms s (module :: C) →
      SortInv parent (sort_parent_module parent fuel module ms s).1
        (sort_parent_module parent fuel module ms s).2 C ∧
      module ∈ (sort_parent_module parent fuel module ms s).2 := by
  intro fuel
  induction fuel with
  | zero =>
    intro module ms s C hlen
    exact absurd hlen (Nat.not_lt_zero _)
  | succ fuel ih =>
    intro module ms s C hlen hC hInv
    cases hp : parent module with
    | none =>
      simp only [sort_parent_module, hp]
      constructor
      · intro m hm q hq hmem
        rcases List.mem_append.mp hm with hm | hm
        · have hq2 : q ∈ ms ∨ q ∈ s ∨ q ∈ module :: C := by
            rcases hmem with h | h | h
            · exact Or.inl h
            · rcases List.mem_append.mp h with h | h
              · exact Or.inr (Or.inl h)
              · exact Or.inr (Or.inr (by simp only [List.mem_singleton] at h; simp [h]))
            · exact Or.inr (Or.inr (List.mem_cons_of_mem _ h))
          exact pair_sublist_extend (hInv m hm q hq hq2)
        · have hm2 : m = module := by simpa using hm
          rw [hm2, hp] at hq
          cases hq
      · exact List.mem_append_right _ (by simp)
    | some p =>
      by_cases hin : p ∈ ms
      · simp only [sort_parent_module, hp, if_pos hin]
        have hpos : 0 < ms.length := List.length_pos_of_mem hin
        have herase := List.length_erase_of_mem hin
        have hlen2 : (ms.erase p).length < fuel := by omega
        have hC2 : ∀ c ∈ module :: C, StrictAnc parent p c := by
          intro c hc
          rcases List.mem_cons.mp hc with hc | hc
          · subst hc
            exact ⟨0, by simp [parentIter, hp]⟩
          · obtain ⟨k, hk⟩ := hC c hc
            exact ⟨k + 1, parentIter_snoc parent (k + 1) c module p hk hp⟩
        have hInv2 : SortInv parent (ms.erase p) s (p :: module :: C) := by
          intro m hm q hq hmem
          apply hInv m hm q hq
          rcases hmem with h | h | h
          · exact Or.inl (List.mem_of_mem_erase h)
          · exact Or.inr (Or.inl h)
          · rcases List.mem_cons.mp h with h | h
            · exact Or.inl (h ▸ hin)
            · exact Or.inr (Or.inr h)
        obtain ⟨hInv3, hmem3⟩ := ih p (ms.erase p) s (module :: C) hlen2 hC2 hInv2
        constructor
        · intro m hm q hq hmem
          rcases List.mem_append.mp hm with hm | hm
          · have hq2 : q ∈ (sort_parent_module parent fuel p (ms.erase p) s).1 ∨
                q ∈ (sort_parent_module parent fuel p (ms.erase p) s).2 ∨
                q ∈ module :: C := by
              rcases hmem with h | h | h
              · exact Or.inl h
              · rcases List.mem_append.mp h with h | h
                · exact Or.inr (Or.inl h)
                · exact Or.inr (Or.inr (by simp only [List.mem_singleton] at h; simp [h]))
              · exact Or.inr (Or.inr (List.mem_cons_of_mem _ h))
            exact pair_sublist_extend (hInv3 m hm q hq hq2)
          · have hm2 : m = module := by simpa using hm
            subst hm2
            rw [hp] at hq
            injection hq with hq
            subst hq
            exact pair_sublist_append hmem3
        · exact List.mem_append_right _ (by simp)
      · simp only [sort_parent_module, hp, if_neg hin]
        constructor
        · intro m hm q hq hmem
          rcases List.mem_append.mp hm with hm | hm
          · have hq2 : q ∈ ms ∨ q ∈ s ∨ q ∈ module :: C := by
              rcases hmem with h | h | h
              · exact Or.inl h
              · rcases List.mem_append.mp h with h | h
                · exact Or.inr (Or.inl h)
                · exact Or.inr (Or.inr (by simp only [List.mem_singleton] at h; simp [h]))
              · exact Or.inr (Or.inr (List.mem_cons_of_mem _ h))
            exact pair_sublist_extend (hInv m hm q hq hq2)
          · have hm2 : m = module := by simpa using hm
            rw [hm2, hp] at hq
            injection hq with h2
            rw [hm2, ← h2]
            rw [← h2] at hmem
            rcases hmem with h | h | h
            · exact absurd h hin
            · rcases List.mem_append.mp h with h | h
              · exact pair_sublist_append h
              · have hq3 : p = module := by simpa using h
                rw [hq3] at hp
                exact absurd (Hrank module module hp) (lt_irrefl _)
            · obtain ⟨k, hk⟩ := hC p h
              have hiter := parentIter_snoc parent (k + 1) p module p hk hp
              exact absurd (parentIter_rank_lt parent rank Hrank (k + 1) p p hiter)
                (lt_irrefl _)
        · exact List.mem_append_right _ (by simp)

/-- Soundness of the full sorting loop under an acyclic (ranked) parent
relation: at loop boundaries nothing is in flight, so the accumulated
sorted list has every placed module strictly after its parent. -/
theorem rig_modules_loop_sound {α : Type} [DecidableEq α] (parent : α → Option α)
    (rank : α → Nat) (Hrank : ∀ m p, parent m = some p → rank p < rank m) :
    ∀ fuel ms s, ms.length ≤ fuel → SortInv parent ms s [] →
      SortInv parent [] (rig_modules_loop parent fuel ms s) [] := by
  intro fuel
  induction fuel with
  | zero =>
    intro ms s hlen hInv
    have hms : ms = [] := List.length_eq_zero.mp (Nat.le_zero.mp hlen)
    subst hms
    exact hInv
  | succ fuel ih =>
    intro ms s hlen hInv
    cases hlast : ms.getLast? with
    | none =>
      have hms : ms = [] := List.getLast?_eq_none_iff.mp hlast
      subst hms
      simpa only [rig_modules_loop, List.getLast?_nil] using hInv
    | some module =>
      have hms : ms.dropLast ++ [module] = ms :=
        List.dropLast_append_getLast? module (Option.mem_def.mpr hlast)
      have hlen2 : ms.dropLast.length + 1 = ms.length := by
        conv_rhs => rw [← hms]
        simp
      have hInv2 : SortInv parent ms.dropLast s [module] := by
        intro m hm q hq hmem
        apply hInv m hm q hq
        rcases hmem with h | h | h
        · exact Or.inl (hms ▸ List.mem_append_left _ h)
        · exact Or.inr (Or.inl h)
        · have hq2 : q = module := by simpa using h
          exact Or.inl (hms ▸ List.mem_append_right _ (by simp [hq2]))
      obtain ⟨hInv3, _⟩ := sort_parent_module_sound parent rank Hrank ms.length module
        ms.dropLast s [] (by omega) (by intro c hc; cases hc) hInv2
      have hfst := sort_parent_module_fst_sublist parent ms.length module ms.dropLast s
      have hlen3 :
          (sort_parent_module parent ms.length module ms.dropLast s).1.length ≤ fuel := by
        have := hfst.length_le
        omega
      simp only [rig_modules_loop, hlast]
      exact ih _ _ hlen3 hInv3

/-- Claim C2: for every set of modules whose `parent_module` relation is
acyclic (expressed by a rank function that strictly decreases along parent
edges), the sequence returned by `rig_modules` contains each input module
exactly once and places every module strictly after its parent module
(`List.Sublist [p, m]` of the output: the parent occurs before the module). -/
theorem c2_rig_modules_sorted {α : Type} [DecidableEq α] (parent : α → Option α)
    (rank : α → Nat) (Hrank : ∀ m p, parent m = some p → rank p < rank m)
    (modules : List α) (hnd : modules.Nodup) :
    (rig_modules parent modules).Perm modules ∧
    (∀ m ∈ modules, (rig_modules parent modules).count m = 1) ∧
    (∀ m ∈ rig_modules parent modules, ∀ p, parent m = some p → p ∈ modules →
      List.Sublist [p, m] (rig_modules parent modules)) := by
  have hperm := rig_modules_perm parent modules
  refine ⟨hperm, ?_, ?_⟩
  · intro m hm
    rw [hperm.count_eq]
    exact List.count_eq_one_of_mem hnd hm
  · have hsound := rig_modules_loop_sound parent rank Hrank modules.length modules []
      (Nat.le_refl _) (by intro m hm; cases hm)
    intro m hm p hp hpmem
    exact hsound m hm p hp (Or.inr (Or.inl (hperm.mem_iff.mpr hpmem)))

/-- A three-module chain A ← B ← C (with A = 0, B = 1, C = 2), handed to the
sorter in the order `sort(C, A, B)` of the spec's ordering test. -/
def chainParent : Nat → Option Nat :=
  fun m => if m = 1 then some 0 else if m = 2 then some 1 else none

theorem chainParent_ranked : ∀ m p, chainParent m = some p → id p < id m := by
  intro m p h
  simp only [chainParent] at h
  split_ifs at h with h1 h2 <;> simp_all
  omega

theorem c2_witness :
    ([2, 0, 1] : List Nat).Nodup ∧
    (rig_modules chainParent [2, 0, 1]).Perm [2, 0, 1] ∧
    rig_modules chainParent [2, 0, 1] = [0, 1, 2] :=
  ⟨by decide,
   (c2_rig_modules_sorted chainParent id chainParent_ranked [2, 0, 1] (by decide)).1,
   by rfl⟩

/-- A two-module parent cycle 0 ↔ 1. -/
def cycParent : Nat → Option Nat :=
  fun m => if m = 0 then some 1 else if m = 1 then some 0 else none

/-- Claim C3 (code bug): on the cyclic configuration 0 ↔ 1 the sorter does
terminate (each recursive call first removes the parent from the working
list, so the recursion is bounded), but it reports nothing: `rig_modules`
returns the order [0, 1] normally — an order in which module 0 precedes its
parent 1 — and neither `sort_parent_module` nor `rig_modules` has any error
path, so no cycle-detected configuration error is ever raised. -/
theorem c3_cycle_silent :
    rig_modules cycParent [0, 1] = [0, 1] ∧ cycParent 0 = some 1 ∧
    ¬ List.Sublist [1, 0] (rig_modules cycParent [0, 1]) := by
  refine ⟨rfl, rfl, ?_⟩
  rw [(rfl : rig_modules cycParent [0, 1] = [0, 1])]
  decide

/-- `Rig.add_module`: refuse when the rig is built (RuntimeError), refuse an
unknown module type (ValueError); otherwise instantiate the new module bound
to this rig (`kwargs['rig'] = self`) and return it.  The externally
constructed instance is the `new_mod` argument; the first component of the
result is the rig's module set after the call. -/
def add_module (registry : List String) (st : RigState) (module_type : String)
    (new_mod : MopModule) : List MopModule × Except String MopModule :=
  if st.is_built then
    (st.modules, Except.error ("Cannot add module when the rig is built."))
  else if module_type ∉ registry then
    (st.modules, Except.error ("Module Type " ++ module_type ++ " is not valid"))
  else
    (st.modules ++ [new_mod], Except.ok new_mod)

/-- `Rig.get_module`: linear scan of the sorted module list by node name;
`none` (after a logged warning) when absent. -/
def get_module (st : RigState) (module_node_name : Nat) : Option MopModule :=
  (rig_modules (mopParent st.modules) st.modules).find?
    (fun m => m.node_name = module_node_name)

/-- Membership test `module.parent_joint.get() in deform_joints` under
Python semantics: `None` is in no list of joint names. -/
def parent_joint_in (pj : Option Nat) (joints : List Nat) : Bool :=
  match pj with
  | none => false
  | some j => decide (j ∈ joints)

/-- `Rig.delete_module`: a logged-error no-op when the rig is built.
Otherwise look the target up (`get_module`; when that returns `None` the
subsequent attribute access raises, modelled as `Except.error`), re-parent
every module whose `parent_joint` is one of the target's deform joints onto
the target's own `parent_joint`, then delete the target's node and its
deform joints.  The loop runs over `rig_modules`, which is a permutation of
the module set (`rig_modules_perm`), so it is modelled as a map over the
module set; `module.update()` only rebuilds scene content outside the
tracked state. -/
def delete_module (st : RigState) (module_node_name : Nat) : Except String RigState :=
  if st.is_built then
    Except.ok st
  else
    match get_module st module_node_name with
    | none =>
      Except.error ("AttributeError: NoneType object has no attribute deform_joints")
    | some tgt =>
      let repaired := st.modules.map (fun m =>
        if parent_joint_in m.parent_joint tgt.deform_joints then
          { m with parent_joint := tgt.parent_joint }
        else m)
      Except.ok
        { st with
          modules := repaired.filter (fun m => m.node_name ≠ tgt.node_name),
          scene := st.scene.filter
            (fun n => n.nid ≠ tgt.node_name ∧ n.nid ∉ tgt.deform_joints) }

/-- Claim C5: `add_module` raises when the rig's `is_built` flag is set,
raises when the module type is not a registry key, and otherwise
instantiates and returns the new module bound to this rig; in both error
cases the rig's module set is unchanged. -/
theorem c5_add_module_spec (registry : List String) (st : RigState)
    (module_type : String) (new_mod : MopModule) :
    (st.is_built = true →
      add_module registry st module_type new_mod =
        (st.modules, Except.error ("Cannot add module when the rig is built."))) ∧
    (st.is_built = false → module_type ∉ registry →
      add_module registry st module_type new_mod =
        (st.modules, Except.error ("Module Type " ++ module_type ++ " is not valid"))) ∧
    (st.is_built = false → module_type ∈ registry →
      add_module registry st module_type new_mod =
        (st.modules ++ [new_mod], Except.ok new_mod)) := by
  refine ⟨?_, ?_, ?_⟩
  · intro hb
    simp [add_module, hb]
  · intro hb hnr
    simp [add_module, hb, hnr]
  · intro hb hr
    simp [add_module, hb, hr]

def c5_rig : RigState :=
  { is_built := false, modules := [], scene := [] }

def c5_mod : MopModule :=
  { node_name := 7, parent_mod := none, parent_joint := none, deform_joints := [],
    controllers := [], placement_group := 8, is_built := false }

theorem c5_witness :
    c5_rig.is_built = false ∧ "arm" ∈ (["arm"] : List String) ∧
    add_module ["arm"] c5_rig "arm" c5_mod =
      (c5_rig.modules ++ [c5_mod], Except.ok c5_mod) :=
  ⟨rfl, by decide,
   (c5_add_module_spec ["arm"] c5_rig "arm" c5_mod).2.2 rfl (by decide)⟩

/-- Claim C6: `delete_module` on a built rig is a refused no-op (the module
set, the scene, every flag are unchanged); on an unbuilt rig every other
module whose `parent_joint` is among the target's deform joints is
re-parented onto the target's own `parent_joint` and survives in the result,
and the target itself is gone from the module set. -/
theorem c6_delete_module_spec (st : RigState) (module_node_name : Nat) :
    (st.is_built = true → delete_module st module_node_name = Except.ok st) ∧
    (st.is_built = false → ∀ tgt st2,
      get_module st module_node_name = some tgt →
      delete_module st module_node_name = Except.ok st2 →
      (∀ m ∈ st.modules, m.node_name ≠ tgt.node_name →
        ∀ j, m.parent_joint = some j → j ∈ tgt.deform_joints →
          ({ m with parent_joint := tgt.parent_joint }) ∈ st2.modules) ∧
      (∀ m2 ∈ st2.modules, m2.node_name ≠ tgt.node_name)) := by
  constructor
  · intro hb
    simp [delete_module, hb]
  · intro hb tgt st2 hg hd
    simp only [delete_module, hb, Bool.false_eq_true, if_false, hg, Except.ok.injEq] at hd
    subst hd
    constructor
    · intro m hm hne j hj hjin
      have hcond : parent_joint_in m.parent_joint tgt.deform_joints = true := by
        simp [parent_joint_in, hj, hjin]
      refine List.mem_filter.mpr ⟨?_, by simp [hne]⟩
      have := List.mem_map_of_mem (fun m =>
        if parent_joint_in m.parent_joint tgt.deform_joints then
          { m with parent_joint := tgt.parent_joint } else m) hm
      simpa [hcond] using this
    · intro m2 hm2
      have := (List.mem_filter.mp hm2).2
      simpa using this

def c6_modB : MopModule :=
  { node_name := 20, parent_mod := none, parent_joint := some 5, deform_joints := [6],
    controllers := [], placement_group := 0, is_built := false }

def c6_modC : MopModule :=
  { node_name := 30, parent_mod := none, parent_joint := some 6, deform_joints := [],
    controllers := [], placement_group := 1, is_built := false }

def c6_st : RigState :=
  { is_built := false, modules := [c6_modB, c6_modC], scene := [] }

def c6_st2 : RigState :=
  match delete_module c6_st 20 with
  | Except.ok s => s
  | Except.error _ => c6_st

theorem c6_witness :
    c6_st.is_built = false ∧
    get_module c6_st 20 = some c6_modB ∧
    delete_module c6_st 20 = Except.ok c6_st2 ∧
    ({ c6_modC with parent_joint := c6_modB.parent_joint }) ∈ c6_st2.modules ∧
    (∀ m2 ∈ c6_st2.modules, m2.node_name ≠ c6_modB.node_name) :=
  ⟨rfl, by rfl, by rfl,
   ((c6_delete_module_spec c6_st 20).2 rfl c6_modB c6_st2 (by rfl) (by rfl)).1
     c6_modC (by decide) (by decide) 6 rfl (by decide),
   ((c6_delete_module_spec c6_st 20).2 rfl c6_modB c6_st2 (by rfl) (by rfl)).2⟩

/-- Claim C10: on an unbuilt rig, `delete_module` with a name that matches
no module dereferences the `None` returned by `get_module`
(`module_to_del.deform_joints`), so it raises instead of being the
logged-warning no-op that `get_module` itself is. -/
theorem c10_delete_missing_module_raises (st : RigState) (module_node_name : Nat)
    (hb : st.is_built = false)
    (hg : get_module st module_node_name = none) :
    delete_module st module_node_name =
      Except.error ("AttributeError: NoneType object has no attribute deform_joints") := by
  simp [delete_module, hb, hg]

theorem c10_witness :
    c5_rig.is_built = false ∧ get_module c5_rig 0 = none ∧
    delete_module c5_rig 0 =
      Except.error ("AttributeError: NoneType object has no attribute deform_joints") :=
  ⟨rfl, by rfl, c10_delete_missing_module_raises c5_rig 0 rfl (by rfl)⟩

/-- The external collaborators of `build`/`unbuild`, each reduced to the part
of its behaviour the `Rig` code depends on: the nodes a hook phase or a
service call creates (scene-monotone black boxes, per the interface contract
of spec section 6), and the strings the two capture services return for a
controller.  `capture_shape = none` models `get_shape_data` raising, which
the caller swallows. -/
structure Externals where
  pre_build_new : List SceneNode
  post_build_new : List SceneNode
  pre_unbuild_new : List SceneNode
  post_unbuild_new : List SceneNode
  module_new : Nat → List SceneNode
  space_new : Nat → List SceneNode
  capture_attr_state : Nat → String
  capture_shape : Nat → Option String

/-- Build, step 3 (per controller): read `ctl.attributes_state`
(`cmds.getAttr` raises when the node is gone), skip falsy blobs, parse the
rest with `json.loads` (raising — uncaught — on malformed data) and hand the
result to `set_attributes_state`, which only touches per-attribute
lock/keyable state outside the tracked attributes. -/
def apply_ctl_attr_state (ctl : Nat) (scene : List SceneNode) :
    Except String (List SceneNode) :=
  match getNode scene ctl with
  | none => Except.error ("getAttr: no object matches name")
  | some n =>
    match n.attributes_state with
    | none => Except.ok scene
    | some s =>
      if s = "" then Except.ok scene
      else
        match json_loads s with
        | Except.error e => Except.error e
        | Except.ok _ => Except.ok scene

def ctl_state_loop : List Nat → List SceneNode → Except String (List SceneNode)
  | [], scene => Except.ok scene
  | ctl :: rest, scene =>
    match apply_ctl_attr_state ctl scene with
    | Except.error e => Except.error e
    | Except.ok scene2 => ctl_state_loop rest scene2

/-- Build, step 3 (per module, in dependency order): run the module's
`_build` (modelled by the nodes it creates), restore each controller's
attribute state, then hide the placement group. -/
def module_pass (ext : Externals) :
    List MopModule → List SceneNode → Except String (List SceneNode)
  | [], scene => Except.ok scene
  | m :: rest, scene =>
    match ctl_state_loop m.controllers (scene ++ ext.module_new m.node_name) with
    | Except.error e => Except.error e
    | Except.ok scene2 =>
      match getNode scene2 m.placement_group with
      | none => Except.error ("setAttr: no object matches name")
      | some _ => module_pass ext rest (setVisibility m.placement_group false scene2)

/-- Build, step 5 (per controller): read `ctl.parent_space_data`, skip falsy
blobs, parse the rest (`json.loads` raises uncaught on malformed data), skip
decoded values that are not objects (no `.get` attribute), and when the
ordered `parents` list is truthy call `create_space_switching` (modelled by
the nodes it creates). -/
def apply_ctl_spaces (ext : Externals) (ctl : Nat) (scene : List SceneNode) :
    Except String (List SceneNode) :=
  match getNode scene ctl with
  | none => Except.error ("getAttr: no object matches name")
  | some n =>
    match n.parent_space_data with
    | none => Except.ok scene
    | some s =>
      if s = "" then Except.ok scene
      else
        match json_loads s with
        | Except.error e => Except.error e
        | Except.ok (JValue.jobj fields) =>
          if pyTruthy (jobjGet fields "parents" (JValue.jarr [])) then
            Except.ok (scene ++ ext.space_new ctl)
          else Except.ok scene
        | Except.ok _ => Except.ok scene

def ctl_space_loop (ext : Externals) : List Nat → List SceneNode → Except String (List SceneNode)
  | [], scene => Except.ok scene
  | ctl :: rest, scene =>
    match apply_ctl_spaces ext ctl scene with
    | Except.error e => Except.error e
    | Except.ok scene2 => ctl_space_loop ext rest scene2

def space_pass (ext : Externals) :
    List MopModule → List SceneNode → Except String (List SceneNode)
  | [], scene => Except.ok scene
  | m :: rest, scene =>
    match ctl_space_loop ext m.controllers scene with
    | Except.error e => Except.error e
    | Except.ok scene2 => space_pass ext rest scene2

/-- Build, step 2: the node-set snapshot (`set(cmds.ls('*'))`) taken after
the `pre_build` hook ran. -/
def build_snapshot (ext : Externals) (st : RigState) : List Nat :=
  node_ids (st.scene ++ ext.pre_build_new)

/-- The scene after the per-module build pass (build step 3). -/
def build_module_result (ext : Externals) (st : RigState) :
    Except String (List SceneNode) :=
  module_pass ext (rig_modules (mopParent st.modules) st.modules)
    (st.scene ++ ext.pre_build_new)

/-- Build, step 4: the ephemeral set of this build pass — the difference
between the node set after the per-module pass and the snapshot before it. -/
def buildDiff (ext : Externals) (st : RigState) : List Nat :=
  match build_module_result ext st with
  | Except.error _ => []
  | Except.ok scene1 =>
    (node_ids scene1).filter (fun i => decide (i ∉ build_snapshot ext st))

/-- `Rig.build`: pre-build hook, snapshot, per-module pass, node-set diff,
parent-space pass, post-build hook, tagging of the diff, `is_built := True`.
The diff is computed before the parent-space pass and the post-build hook
run, so nodes those create are not in it.  `reset_pose` and timing calls
touch nothing in the tracked state. -/
def build (ext : Externals) (st : RigState) : Except String RigState :=
  match build_module_result ext st with
  | Except.error e => Except.error e
  | Except.ok scene1 =>
    match space_pass ext (rig_modules (mopParent st.modules) st.modules) scene1 with
    | Except.error e => Except.error e
    | Except.ok scene2 =>
      Except.ok
        { st with
          is_built := true,
          scene := tag_nodes_for_unbuild
            ((node_ids scene1).filter (fun i => decide (i ∉ build_snapshot ext st)))
            (scene2 ++ ext.post_build_new) }

/-- Unbuild, step 3 (per controller): capture the shape (best effort — a
raising `get_shape_data` or a vanished node is swallowed by the
`try/except`), then capture and persist the attribute state (`cmds.setAttr`
raises, uncaught, when the controller node is gone). -/
def capture_ctl (ext : Externals) (ctl : Nat) (scene : List SceneNode) :
    Except String (List SceneNode) :=
  let scene1 :=
    match ext.capture_shape ctl with
    | none => scene
    | some sd =>
      match getNode scene ctl with
      | none => scene
      | some _ => setShapeBlob ctl sd scene
  match getNode scene1 ctl with
  | none => Except.error ("setAttr: no object matches name")
  | some _ => Except.ok (setAttrStateBlob ctl (ext.capture_attr_state ctl) scene1)

def capture_ctl_loop (ext : Externals) : List Nat → List SceneNode → Except String (List SceneNode)
  | [], scene => Except.ok scene
  | ctl :: rest, scene =>
    match capture_ctl ext ctl scene with
    | Except.error e => Except.error e
    | Except.ok scene2 => capture_ctl_loop ext rest scene2

/-- Unbuild, step 3 (per module): capture every controller, then restore the
placement group's visibility to true. -/
def capture_pass (ext : Externals) :
    List MopModule → List SceneNode → Except String (List SceneNode)
  | [], scene => Except.ok scene
  | m :: rest, scene =>
    match capture_ctl_loop ext m.controllers scene with
    | Except.error e => Except.error e
    | Except.ok scene2 =>
      match getNode scene2 m.placement_group with
      | none => Except.error ("setAttr: no object matches name")
      | some _ => capture_pass ext rest (setVisibility m.placement_group true scene2)

/-- Unbuild, step 6: `module.is_built.set(False)` for each module of the
sorted list, applied to the module set through the module's node name. -/
def reset_flags : List MopModule → List MopModule → List MopModule
  | [], modules => modules
  | m :: rest, modules =>
    reset_flags rest (modules.map (fun x =>
      if x.node_name = m.node_name then { x with is_built := false } else x))

/-- `Rig.unbuild`: pre-unbuild hook, `reset_pose` (controller transforms,
outside the tracked state), per-module capture pass, skeleton driver
disconnection (attribute connections, outside the tracked state), deletion
of every node carrying the `is_build_node` marker, per-module and rig
`is_built := False`, post-unbuild hook. -/
def unbuild (ext : Externals) (st : RigState) : Except String RigState :=
  match capture_pass ext (rig_modules (mopParent st.modules) st.modules)
      (st.scene ++ ext.pre_unbuild_new) with
  | Except.error e => Except.error e
  | Except.ok scene1 =>
    Except.ok
      { is_built := false,
        modules := reset_flags (rig_modules (mopParent st.modules) st.modules) st.modules,
        scene :=
          (scene1.filter (fun n => decide (n.nid ∉ build_nodes scene1))) ++
            ext.post_unbuild_new }

/-- What one capture-pass write can do to a node record: never its name or
its marker, and a visible node stays visible (the pass only sets visibility
to true). -/
def NodeStep (a b : SceneNode) : Prop :=
  b.nid = a.nid ∧ b.is_build_node = a.is_build_node ∧
    (a.visibility = true → b.visibility = true)

/-- Pointwise lifting of `NodeStep` to scenes (no record added or removed). -/
def SceneStep (s t : List SceneNode) : Prop :=
  List.Forall₂ NodeStep s t

theorem scene_step_refl (s : List SceneNode) : SceneStep s s :=
  List.forall₂_same.mpr (fun _ _ => ⟨rfl, rfl, fun h => h⟩)

theorem forall2_trans {α : Type} {R : α → α → Prop}
    (hR : ∀ a b c, R a b → R b c → R a c) :
    ∀ {l1 l2 l3 : List α}, List.Forall₂ R l1 l2 → List.Forall₂ R l2 l3 →
      List.Forall₂ R l1 l3 := by
  intro l1 l2 l3 h12
  induction h12 generalizing l3 with
  | nil =>
    intro h23
    cases h23
    exact List.Forall₂.nil
  | cons hab h12 ih =>
    intro h23
    cases h23 with
    | cons hbc h23 =>
      exact List.Forall₂.cons (hR _ _ _ hab hbc) (ih h23)

theorem scene_step_trans {s t u : List SceneNode}
    (h1 : SceneStep s t) (h2 : SceneStep t u) : SceneStep s u := by
  refine forall2_trans ?_ h1 h2
  rintro a b c ⟨h1, h2, h3⟩ ⟨h4, h5, h6⟩
  exact ⟨h4.trans h1, h5.trans h2, fun h => h6 (h3 h)⟩

theorem forall2_mem_right {α β : Type} {R : α → β → Prop} :
    ∀ {l1 : List α} {l2 : List β}, List.Forall₂ R l1 l2 → ∀ b ∈ l2,
      ∃ a ∈ l1, R a b := by
  intro l1 l2 h
  induction h with
  | nil => intro b hb; cases hb
  | cons hab h ih =>
    intro b hb
    rcases List.mem_cons.mp hb with hb | hb
    · exact ⟨_, List.mem_cons_self _ _, hb ▸ hab⟩
    · obtain ⟨a, ha, har⟩ := ih b hb
      exact ⟨a, List.mem_cons_of_mem _ ha, har⟩

theorem scene_step_map (f : SceneNode → SceneNode)
    (hf : ∀ a, NodeStep a (f a)) (s : List SceneNode) : SceneStep s (s.map f) := by
  induction s with
  | nil => exact List.Forall₂.nil
  | cons a rest ih => exact List.Forall₂.cons (hf a) ih

theorem scene_step_node_ids {s t : List SceneNode} (h : SceneStep s t) :
    node_ids t = node_ids s := by
  induction h with
  | nil => rfl
  | cons hab h ih => simp [node_ids] at ih ⊢; exact ⟨hab.1, ih⟩

theorem scene_step_build_nodes {s t : List SceneNode} (h : SceneStep s t) :
    build_nodes t = build_nodes s := by
  induction h with
  | nil => rfl
  | @cons a b l1 l2 hab h ih =>
    obtain ⟨h1, h2, _⟩ := hab
    simp only [build_nodes, List.filter_cons, h2]
    cases hm : a.is_build_node
    · simpa [build_nodes] using ih
    · simp only [build_nodes] at ih
      simp [ih, h1]

/-- A map that keeps every record's name keeps the scene's name list. -/
theorem node_ids_map_of_nid (f : SceneNode → SceneNode)
    (hf : ∀ a, (f a).nid = a.nid) (s : List SceneNode) :
    node_ids (s.map f) = node_ids s := by
  induction s with
  | nil => rfl
  | cons a rest ih =>
    simp only [node_ids, List.map_cons, hf] at ih ⊢
    simp [ih]

/-- A map that keeps names and markers keeps `build_nodes`. -/
theorem build_nodes_map_of_marker (f : SceneNode → SceneNode)
    (hf : ∀ a, (f a).nid = a.nid ∧ (f a).is_build_node = a.is_build_node)
    (s : List SceneNode) : build_nodes (s.map f) = build_nodes s := by
  induction s with
  | nil => rfl
  | cons a rest ih =>
    simp only [build_nodes, List.map_cons, List.filter_cons, (hf a).2]
    cases hm : a.is_build_node <;> simp only [build_nodes] at ih <;>
      simp [ih, (hf a).1]

theorem node_ids_tag (bn : List Nat) (s : List SceneNode) :
    node_ids (tag_nodes_for_unbuild bn s) = node_ids s := by
  refine node_ids_map_of_nid _ ?_ s
  intro a
  by_cases h : a.nid ∈ bn <;> simp [h]

/-- Every record whose name is in the tagged list carries the marker after
tagging. -/
theorem tag_marks (bn : List Nat) (s : List SceneNode) :
    ∀ n ∈ tag_nodes_for_unbuild bn s, n.nid ∈ bn → n.is_build_node = true := by
  intro n hn hbn
  rcases List.mem_map.mp hn with ⟨a, _, rfl⟩
  by_cases h : a.nid ∈ bn
  · simp [h]
  · simp [h] at hbn

/-- `build_nodes` membership unfolded: a name is a build node exactly when
some scene record carries it together with the marker. -/
theorem build_nodes_mem_iff (s : List SceneNode) (i : Nat) :
    i ∈ build_nodes s ↔ ∃ n, n ∈ s ∧ n.nid = i ∧ n.is_build_node = true := by
  simp only [build_nodes, List.mem_map, List.mem_filter]
  constructor
  · rintro ⟨n, ⟨h1, h2⟩, h3⟩
    exact ⟨n, h1, h3, h2⟩
  · rintro ⟨n, h1, h2, h3⟩
    exact ⟨n, ⟨h1, h3⟩, h2⟩

theorem mem_build_nodes_of_marked {s : List SceneNode} {n : SceneNode}
    (hn : n ∈ s) (hm : n.is_build_node = true) : n.nid ∈ build_nodes s :=
  (build_nodes_mem_iff s n.nid).mpr ⟨n, hn, rfl, hm⟩

theorem build_nodes_nil_of_unmarked {s : List SceneNode}
    (h : ∀ n ∈ s, n.is_build_node = false) : build_nodes s = [] := by
  unfold build_nodes
  rw [List.filter_eq_nil_iff.mpr (by intro a ha; simp [h a ha]), List.map_nil]

/-- On a scene whose records are all unmarked, the build nodes after tagging
are exactly the tagged names that are present. -/
theorem build_nodes_tag_of_unmarked (bn : List Nat) (s : List SceneNode)
    (h : ∀ n ∈ s, n.is_build_node = false) :
    ∀ i, i ∈ build_nodes (tag_nodes_for_unbuild bn s) ↔
      i ∈ node_ids s ∧ i ∈ bn := by
  intro i
  constructor
  · intro hi
    obtain ⟨n, hn, hni, hmk⟩ := (build_nodes_mem_iff _ i).mp hi
    rcases List.mem_map.mp hn with ⟨a, ha, rfl⟩
    by_cases hb : a.nid ∈ bn
    · simp only [hb, if_true] at hni ⊢
      refine ⟨?_, ?_⟩
      · exact hni ▸ List.mem_map_of_mem SceneNode.nid ha
      · exact hni ▸ hb
    · simp only [hb, if_false] at hni hmk
      exact absurd hmk (by simp [h a ha])
  · rintro ⟨hi, hb⟩
    obtain ⟨a, ha, hai⟩ := List.mem_map.mp hi
    refine (build_nodes_mem_iff _ i).mpr ⟨{ a with is_build_node := true }, ?_, hai, rfl⟩
    have hanid : a.nid ∈ bn := by rw [hai]; exact hb
    have hmem := List.mem_map_of_mem (fun n =>
      if n.nid ∈ bn then { n with is_build_node := true } else n) ha
    simpa [tag_nodes_for_unbuild, hanid] using hmem

/-- Deleting the nodes of a name list keeps exactly the names outside it. -/
theorem node_ids_filter_not_mem (s : List SceneNode) (bn : List Nat) (i : Nat) :
    i ∈ node_ids (s.filter (fun n => decide (n.nid ∉ bn))) ↔
      i ∈ node_ids s ∧ i ∉ bn := by
  simp only [node_ids, List.mem_map, List.mem_filter, decide_eq_true_eq]
  constructor
  · rintro ⟨n, ⟨h1, h2⟩, h3⟩
    exact ⟨⟨n, h1, h3⟩, h3 ▸ h2⟩
  · rintro ⟨⟨n, h1, h3⟩, h2⟩
    exact ⟨n, ⟨h1, h3 ▸ h2⟩, h3⟩

/-- With pairwise-distinct node names, a name determines its record. -/
theorem nodup_ids_unique {s : List SceneNode} (h : (node_ids s).Nodup) :
    ∀ a ∈ s, ∀ b ∈ s, a.nid = b.nid → a = b := by
  intro a ha b hb hab
  exact List.inj_on_of_nodup_map h ha hb hab

theorem node_ids_append (s t : List SceneNode) :
    node_ids (s ++ t) = node_ids s ++ node_ids t := by
  simp [node_ids]

theorem node_ids_setVisibility (i : Nat) (v : Bool) (s : List SceneNode) :
    node_ids (setVisibility i v s) = node_ids s :=
  node_ids_map_of_nid _ (fun a => by by_cases h : a.nid = i <;> simp [h]) s

theorem unmarked_setVisibility {i : Nat} {v : Bool} {s : List SceneNode}
    (h : ∀ a ∈ s, a.is_build_node = false) :
    ∀ n ∈ setVisibility i v s, n.is_build_node = false := by
  intro n hn
  rcases List.mem_map.mp hn with ⟨a, ha, rfl⟩
  by_cases hc : a.nid = i <;> simp [hc, h a ha]

/-- The attribute-state restoration never changes the tracked scene when it
returns at all (it only adjusts lock/keyable state). -/
theorem apply_ctl_attr_state_ok {ctl : Nat} {scene out : List SceneNode}
    (h : apply_ctl_attr_state ctl scene = Except.ok out) : out = scene := by
  unfold apply_ctl_attr_state at h
  repeat' split at h
  all_goals first
    | exact (Except.ok.inj h).symm
    | cases h

theorem ctl_state_loop_ok : ∀ {ctls : List Nat} {scene out : List SceneNode},
    ctl_state_loop ctls scene = Except.ok out → out = scene := by
  intro ctls
  induction ctls with
  | nil =>
    intro scene out h
    exact (Except.ok.inj h).symm
  | cons c rest ih =>
    intro scene out h
    unfold ctl_state_loop at h
    cases ha : apply_ctl_attr_state c scene with
    | error e => rw [ha] at h; cases h
    | ok scene2 =>
      rw [ha] at h
      exact (ih h).trans (apply_ctl_attr_state_ok ha)

/-- When the space-switching service creates no nodes, the parent-space
application leaves the tracked scene unchanged whenever it returns. -/
theorem apply_ctl_spaces_empty {ext : Externals} {ctl : Nat}
    {scene out : List SceneNode} (hsp : ext.space_new ctl = [])
    (h : apply_ctl_spaces ext ctl scene = Except.ok out) : out = scene := by
  unfold apply_ctl_spaces at h
  rw [hsp] at h
  repeat' split at h
  all_goals try rw [List.append_nil] at h
  all_goals first
    | exact (Except.ok.inj h).symm
    | cases h

theorem ctl_space_loop_empty {ext : Externals} (hsp : ∀ c, ext.space_new c = []) :
    ∀ {ctls : List Nat} {scene out : List SceneNode},
      ctl_space_loop ext ctls scene = Except.ok out → out = scene := by
  intro ctls
  induction ctls with
  | nil =>
    intro scene out h
    exact (Except.ok.inj h).symm
  | cons c rest ih =>
    intro scene out h
    unfold ctl_space_loop at h
    cases ha : apply_ctl_spaces ext c scene with
    | error e => rw [ha] at h; cases h
    | ok scene2 =>
      rw [ha] at h
      exact (ih h).trans (apply_ctl_spaces_empty (hsp c) ha)

theorem space_pass_empty {ext : Externals} (hsp : ∀ c, ext.space_new c = []) :
    ∀ {mods : List MopModule} {scene out : List SceneNode},
      space_pass ext mods scene = Except.ok out → out = scene := by
  intro mods
  induction mods with
  | nil =>
    intro scene out h
    exact (Except.ok.inj h).symm
  | cons m rest ih =>
    intro scene out h
    unfold space_pass at h
    cases ha : ctl_space_loop ext m.controllers scene with
    | error e => rw [ha] at h; cases h
    | ok scene2 =>
      rw [ha] at h
      exact (ih h).trans (ctl_space_loop_empty hsp ha)

/-- The per-module build pass only adds the nodes the modules create (and
flips placement visibility): every pre-existing name survives, and when
everything was unmarked and the created nodes are unmarked, everything
stays unmarked. -/
theorem module_pass_ok_facts {ext : Externals} :
    ∀ {mods : List MopModule} {scene out : List SceneNode},
      module_pass ext mods scene = Except.ok out →
      (∀ i ∈ node_ids scene, i ∈ node_ids out) ∧
      ((∀ n ∈ scene, n.is_build_node = false) →
        (∀ mn, ∀ n ∈ ext.module_new mn, n.is_build_node = false) →
        ∀ n ∈ out, n.is_build_node = false) := by
  intro mods
  induction mods with
  | nil =>
    intro scene out h
    obtain rfl := (Except.ok.inj h)
    exact ⟨fun i hi => hi, fun hs _ => hs⟩
  | cons m rest ih =>
    intro scene out h
    unfold module_pass at h
    cases hc : ctl_state_loop m.controllers (scene ++ ext.module_new m.node_name) with
    | error e => simp only [hc] at h; cases h
    | ok scene2 =>
      simp only [hc] at h
      have hs2 : scene2 = scene ++ ext.module_new m.node_name := ctl_state_loop_ok hc
      cases hg : getNode scene2 m.placement_group with
      | none => simp only [hg] at h; cases h
      | some n =>
        simp only [hg] at h
        obtain ⟨ih1, ih2⟩ := ih h
        constructor
        · intro i hi
          apply ih1
          rw [node_ids_setVisibility, hs2, node_ids_append]
          exact List.mem_append_left _ hi
        · intro hsc hmn n2 hn2
          apply ih2 ?_ hmn n2 hn2
          apply unmarked_setVisibility
          rw [hs2]
          intro a ha
          rcases List.mem_append.mp ha with ha | ha
          · exact hsc a ha
          · exact hmn m.node_name a ha

theorem setShapeBlob_step (i : Nat) (sd : String) (s : List SceneNode) :
    SceneStep s (setShapeBlob i sd s) :=
  scene_step_map _ (fun a => by
    by_cases h : a.nid = i <;> simp [NodeStep, h]) s

theorem setAttrStateBlob_step (i : Nat) (v : String) (s : List SceneNode) :
    SceneStep s (setAttrStateBlob i v s) :=
  scene_step_map _ (fun a => by
    by_cases h : a.nid = i <;> simp [NodeStep, h]) s

theorem setVisibility_true_step (i : Nat) (s : List SceneNode) :
    SceneStep s (setVisibility i true s) :=
  scene_step_map _ (fun a => by
    by_cases h : a.nid = i <;> simp [NodeStep, h]) s

theorem setVisibility_true_at {i : Nat} {s : List SceneNode} :
    ∀ a ∈ setVisibility i true s, a.nid = i → a.visibility = true := by
  intro a ha hai
  rcases List.mem_map.mp ha with ⟨b, hb, rfl⟩
  by_cases h : b.nid = i
  · simp [h]
  · simp [h] at hai

/-- One controller capture only writes blobs onto the controller node (or is
swallowed): a scene step. -/
theorem capture_ctl_step {ext : Externals} {ctl : Nat} {scene out : List SceneNode}
    (h : capture_ctl ext ctl scene = Except.ok out) : SceneStep scene out := by
  unfold capture_ctl at h
  cases hs : ext.capture_shape ctl with
  | none =>
    simp only [hs] at h
    cases hg : getNode scene ctl with
    | none => simp only [hg] at h; cases h
    | some n =>
      simp only [hg] at h
      obtain rfl := (Except.ok.inj h)
      exact setAttrStateBlob_step ctl _ scene
  | some sd =>
    simp only [hs] at h
    cases hg : getNode scene ctl with
    | none => simp [hg] at h
    | some n =>
      simp only [hg] at h
      cases hg2 : getNode (setShapeBlob ctl sd scene) ctl with
      | none => simp only [hg2] at h; cases h
      | some n2 =>
        simp only [hg2] at h
        obtain rfl := (Except.ok.inj h)
        exact scene_step_trans (setShapeBlob_step ctl sd scene)
          (setAttrStateBlob_step ctl _ _)

theorem capture_ctl_loop_step {ext : Externals} :
    ∀ {ctls : List Nat} {scene out : List SceneNode},
      capture_ctl_loop ext ctls scene = Except.ok out → SceneStep scene out := by
  intro ctls
  induction ctls with
  | nil =>
    intro scene out h
    obtain rfl := (Except.ok.inj h)
    exact scene_step_refl scene
  | cons c rest ih =>
    intro scene out h
    unfold capture_ctl_loop at h
    cases hc : capture_ctl ext c scene with
    | error e => simp only [hc] at h; cases h
    | ok scene2 =>
      simp only [hc] at h
      exact scene_step_trans (capture_ctl_step hc) (ih h)

/-- The whole per-module capture pass is a scene step: it writes blobs and
restores visibility but never creates, deletes or un-tags a node. -/
theorem capture_pass_step {ext : Externals} :
    ∀ {mods : List MopModule} {scene out : List SceneNode},
      capture_pass ext mods scene = Except.ok out → SceneStep scene out := by
  intro mods
  induction mods with
  | nil =>
    intro scene out h
    obtain rfl := (Except.ok.inj h)
    exact scene_step_refl scene
  | cons m rest ih =>
    intro scene out h
    unfold capture_pass at h
    cases hc : capture_ctl_loop ext m.controllers scene with
    | error e => simp only [hc] at h; cases h
    | ok scene2 =>
      simp only [hc] at h
      cases hg : getNode scene2 m.placement_group with
      | none => simp only [hg] at h; cases h
      | some n =>
        simp only [hg] at h
        refine scene_step_trans (capture_ctl_loop_step hc) ?_
        exact scene_step_trans (setVisibility_true_step m.placement_group scene2) (ih h)

/-- After a successful capture pass every placement group of a processed
module is visible: its own step sets visibility to true and every later
step preserves visibility. -/
theorem capture_pass_vis {ext : Externals} :
    ∀ {mods : List MopModule} {scene out : List SceneNode},
      capture_pass ext mods scene = Except.ok out →
      ∀ m ∈ mods, ∀ n ∈ out, n.nid = m.placement_group → n.visibility = true := by
  intro mods
  induction mods with
  | nil =>
    intro scene out _ m hm
    cases hm
  | cons m0 rest ih =>
    intro scene out h m hm n hn hnid
    unfold capture_pass at h
    cases hc : capture_ctl_loop ext m0.controllers scene with
    | error e => simp only [hc] at h; cases h
    | ok scene2 =>
      simp only [hc] at h
      cases hg : getNode scene2 m0.placement_group with
      | none => simp only [hg] at h; cases h
      | some np =>
        simp only [hg] at h
        rcases List.mem_cons.mp hm with hm | hm
        · have hstep : SceneStep (setVisibility m0.placement_group true scene2) out :=
            capture_pass_step h
          obtain ⟨a, ha, hrel⟩ := forall2_mem_right hstep n hn
          have hanid : a.nid = m.placement_group := by rw [← hrel.1, hnid]
          have havis : a.visibility = true := by
            apply setVisibility_true_at a ha
            rw [hanid, hm]
          exact hrel.2.2 havis
        · exact ih h m hm n hn hnid

theorem forall2_map_self {α : Type} {R : α → α → Prop} (f : α → α)
    (hf : ∀ a, R a (f a)) : ∀ l : List α, List.Forall₂ R l (l.map f) := by
  intro l
  induction l with
  | nil => exact List.Forall₂.nil
  | cons a rest ih => exact List.Forall₂.cons (hf a) ih

/-- What the flag-reset loop can do to one module record: never its name,
and it only ever clears the `is_built` flag. -/
def ModFlagRel (x y : MopModule) : Prop :=
  y.node_name = x.node_name ∧ (y.is_built = true → x.is_built = true)

theorem reset_flags_rel : ∀ (mods modules : List MopModule),
    List.Forall₂ ModFlagRel modules (reset_flags mods modules) := by
  intro mods
  induction mods with
  | nil =>
    intro modules
    exact List.forall₂_same.mpr (fun x _ => ⟨rfl, fun h => h⟩)
  | cons m rest ih =>
    intro modules
    unfold reset_flags
    refine forall2_trans ?_ ?_ (ih _)
    · rintro a b c ⟨h1, h2⟩ ⟨h3, h4⟩
      exact ⟨h3.trans h1, fun h => h2 (h4 h)⟩
    · refine forall2_map_self _ ?_ modules
      intro x
      by_cases hx : x.node_name = m.node_name <;> simp [ModFlagRel, hx]

/-- Every module whose name occurs in the processed list comes out of the
flag-reset loop with `is_built = false`. -/
theorem reset_flags_false : ∀ (mods modules : List MopModule),
    ∀ y ∈ reset_flags mods modules,
      y.node_name ∈ mods.map MopModule.node_name → y.is_built = false := by
  intro mods
  induction mods with
  | nil =>
    intro modules y _ hname
    simp at hname
  | cons m rest ih =>
    intro modules y hy hname
    unfold reset_flags at hy
    by_cases hr : y.node_name ∈ rest.map MopModule.node_name
    · exact ih _ y hy hr
    · rw [List.map_cons] at hname
      have hm : y.node_name = m.node_name := by
        rcases List.mem_cons.mp hname with h | h
        · exact h
        · exact absurd h hr
      obtain ⟨x, hx, hrel⟩ := forall2_mem_right (reset_flags_rel rest _) y hy
      rcases List.mem_map.mp hx with ⟨x0, _, rfl⟩
      by_cases hx0m : x0.node_name = m.node_name
      · cases hb : y.is_built
        · rfl
        · have hbuilt := hrel.2 hb
          simp [hx0m] at hbuilt
      · have h1 : y.node_name = x0.node_name := by
          have := hrel.1
          simpa [hx0m] using this
        rw [h1] at hm
        exact absurd hm hx0m

/-- Structure of a successful `build`: the per-module pass and the space
pass succeeded, the module set is untouched, the flag is set, and the final
scene is the space-pass result plus the post-build hook's nodes with the
per-module diff tagged. -/
theorem build_scene_facts (ext : Externals) (st st1 : RigState)
    (hb : build ext st = Except.ok st1) :
    ∃ scene1, build_module_result ext st = Except.ok scene1 ∧
      st1.modules = st.modules ∧ st1.is_built = true ∧
      ∃ scene2, space_pass ext (rig_modules (mopParent st.modules) st.modules)
          scene1 = Except.ok scene2 ∧
        st1.scene = tag_nodes_for_unbuild
          ((node_ids scene1).filter (fun i => decide (i ∉ build_snapshot ext st)))
          (scene2 ++ ext.post_build_new) := by
  unfold build at hb
  cases hm : build_module_result ext st with
  | error e => simp only [hm] at hb; cases hb
  | ok scene1 =>
    simp only [hm] at hb
    cases hs : space_pass ext (rig_modules (mopParent st.modules) st.modules) scene1 with
    | error e => simp only [hs] at hb; cases hb
    | ok scene2 =>
      simp only [hs] at hb
      obtain rfl := (Except.ok.inj hb)
      exact ⟨scene1, rfl, rfl, rfl, scene2, hs, rfl⟩

/-- Claim C9: after `build()` completes, the rig's `is_built` flag is true,
every scene node whose name is in the ephemeral set (`buildDiff`, the
difference between the node set after the per-module pass and the snapshot
before it) carries the boolean `is_build_node` marker, and the
`build_nodes` property returns exactly the scene nodes carrying that
marker. -/
theorem c9_build_postconditions (ext : Externals) (st st2 : RigState)
    (hb : build ext st = Except.ok st2) :
    st2.is_built = true ∧
    (∀ n ∈ st2.scene, n.nid ∈ buildDiff ext st → n.is_build_node = true) ∧
    (∀ i, i ∈ build_nodes st2.scene ↔
      ∃ n, n ∈ st2.scene ∧ n.nid = i ∧ n.is_build_node = true) := by
  obtain ⟨scene1, hm, _, hflag, scene2, hs, hscene⟩ := build_scene_facts ext st st2 hb
  refine ⟨hflag, ?_, fun i => build_nodes_mem_iff _ i⟩
  intro n hn hdiff
  unfold buildDiff at hdiff
  rw [hm] at hdiff
  rw [hscene] at hn
  exact tag_marks _ _ n hn hdiff

/-- Structure of a successful `unbuild` with trivial hooks: the capture pass
succeeded and the final scene keeps exactly the names that did not carry the
marker. -/
theorem unbuild_ids (ext : Externals) (st st2 : RigState)
    (hu : unbuild ext st = Except.ok st2)
    (hpreu : ext.pre_unbuild_new = []) (hpostu : ext.post_unbuild_new = []) :
    ∀ i, i ∈ node_ids st2.scene ↔
      i ∈ node_ids st.scene ∧ i ∉ build_nodes st.scene := by
  unfold unbuild at hu
  rw [hpreu, List.append_nil] at hu
  cases hc : capture_pass ext (rig_modules (mopParent st.modules) st.modules)
      st.scene with
  | error e => simp only [hc] at hu; cases hu
  | ok scene1 =>
    simp only [hc] at hu
    obtain rfl := (Except.ok.inj hu)
    intro i
    have hstep : SceneStep st.scene scene1 := capture_pass_step hc
    simp only [hpostu, List.append_nil]
    rw [node_ids_filter_not_mem, scene_step_node_ids hstep,
      scene_step_build_nodes hstep]

/-- Claim C8: after `unbuild()` completes (with hooks that leave the scene
alone and pairwise-distinct node names, as a live scene has), the rig's and
every module's `is_built` flags are false, every node that carried the
`is_build_node` marker is gone, every node that did not carry it remains,
and every module's placement group is visible again. -/
theorem c8_unbuild_postconditions (ext : Externals) (st st2 : RigState)
    (hu : unbuild ext st = Except.ok st2)
    (hpreu : ext.pre_unbuild_new = []) (hpostu : ext.post_unbuild_new = [])
    (hnodup : (node_ids st.scene).Nodup) :
    st2.is_built = false ∧
    (∀ m ∈ st2.modules, m.is_built = false) ∧
    (∀ n ∈ st.scene, n.is_build_node = true → n.nid ∉ node_ids st2.scene) ∧
    (∀ n ∈ st.scene, n.is_build_node = false → n.nid ∈ node_ids st2.scene) ∧
    (∀ m ∈ st.modules, ∀ n ∈ st2.scene, n.nid = m.placement_group →
      n.visibility = true) := by
  have hids := unbuild_ids ext st st2 hu hpreu hpostu
  have hperm := rig_modules_perm (mopParent st.modules) st.modules
  unfold unbuild at hu
  rw [hpreu, List.append_nil] at hu
  cases hc : capture_pass ext (rig_modules (mopParent st.modules) st.modules)
      st.scene with
  | error e => simp only [hc] at hu; cases hu
  | ok scene1 =>
    simp only [hc] at hu
    obtain rfl := (Except.ok.inj hu)
    refine ⟨rfl, ?_, ?_, ?_, ?_⟩
    · intro y hy
      apply reset_flags_false _ st.modules y hy
      obtain ⟨x, hx, hrel⟩ := forall2_mem_right
        (reset_flags_rel (rig_modules (mopParent st.modules) st.modules) st.modules) y hy
      rw [hrel.1]
      exact List.mem_map_of_mem MopModule.node_name (hperm.mem_iff.mpr hx)
    · intro n hn hmk hcontra
      obtain ⟨_, h2⟩ := (hids n.nid).mp hcontra
      exact h2 (mem_build_nodes_of_marked hn hmk)
    · intro n hn hmk
      apply (hids n.nid).mpr
      refine ⟨List.mem_map_of_mem SceneNode.nid hn, ?_⟩
      intro hcontra
      obtain ⟨a, ha, hanid, hamk⟩ := (build_nodes_mem_iff st.scene n.nid).mp hcontra
      have hae : a = n := nodup_ids_unique hnodup a ha n hn hanid
      rw [hae, hmk] at hamk
      cases hamk
    · intro m hm n hn hnid
      rw [hpostu, List.append_nil] at hn
      have hn1 : n ∈ scene1 := (List.mem_filter.mp hn).1
      exact capture_pass_vis hc m (hperm.mem_iff.mpr hm) n hn1 hnid

/-- Claim C1 (amended): when the pre/post hooks and the parent-space
establishment create no nodes — they are outside the diff window, so
anything they create escapes the tag-and-delete mechanism — and the
pre-build scene carries no stale markers, `build()` then `unbuild()`
restores the scene's node set exactly; the only tracked difference is the
customization blobs the capture pass wrote onto controllers. -/
theorem c1_round_trip_amended (ext : Externals) (st st1 st2 : RigState)
    (hb : build ext st = Except.ok st1)
    (hu : unbuild ext st1 = Except.ok st2)
    (hpre : ext.pre_build_new = []) (hpost : ext.post_build_new = [])
    (hpreu : ext.pre_unbuild_new = []) (hpostu : ext.post_unbuild_new = [])
    (hsp : ∀ c, ext.space_new c = [])
    (hclean : ∀ n ∈ st.scene, n.is_build_node = false)
    (hmnew : ∀ mn, ∀ n ∈ ext.module_new mn, n.is_build_node = false) :
    ∀ i, i ∈ node_ids st2.scene ↔ i ∈ node_ids st.scene := by
  obtain ⟨scene1, hm, _, _, scene2, hs, hscene⟩ := build_scene_facts ext st st1 hb
  have hsc2 : scene2 = scene1 := space_pass_empty hsp hs
  rw [hsc2] at hscene
  rw [hpost, List.append_nil] at hscene
  have hmp : module_pass ext (rig_modules (mopParent st.modules) st.modules)
      st.scene = Except.ok scene1 := by
    unfold build_module_result at hm
    rwa [hpre, List.append_nil] at hm
  obtain ⟨hmono, hunm⟩ := module_pass_ok_facts hmp
  have hunm1 : ∀ n ∈ scene1, n.is_build_node = false := hunm hclean hmnew
  have hsnap : build_snapshot ext st = node_ids st.scene := by
    unfold build_snapshot
    rw [hpre, List.append_nil]
  have hids := unbuild_ids ext st1 st2 hu hpreu hpostu
  have hbn : ∀ i, i ∈ (node_ids scene1).filter
      (fun i => decide (i ∉ build_snapshot ext st)) ↔
      i ∈ node_ids scene1 ∧ i ∉ node_ids st.scene := by
    intro i
    rw [List.mem_filter]
    simp [hsnap]
  have hbtag := build_nodes_tag_of_unmarked
    ((node_ids scene1).filter (fun i => decide (i ∉ build_snapshot ext st)))
    scene1 hunm1
  intro i
  rw [hids i, hscene, node_ids_tag]
  constructor
  · rintro ⟨h1, h2⟩
    by_cases h3 : i ∈ node_ids st.scene
    · exact h3
    · exact absurd ((hbtag i).mpr ⟨h1, (hbn i).mpr ⟨h1, h3⟩⟩) h2
  · intro h3
    refine ⟨hmono i h3, ?_⟩
    intro hcontra
    obtain ⟨_, hin⟩ := (hbtag i).mp hcontra
    exact ((hbn i).mp hin).2 h3

def c1_sp_node : SceneNode :=
  { nid := 99, is_build_node := false, visibility := true,
    attributes_state := none, parent_space_data := none, shape_data := none }

def c1_ctl : SceneNode :=
  { nid := 1, is_build_node := false, visibility := true,
    attributes_state := none,
    parent_space_data := some ("\x7b\"parents\": [\"a\"], \"space_type\": \"parent\"\x7d"),
    shape_data := none }

def c1_pl : SceneNode :=
  { nid := 2, is_build_node := false, visibility := true,
    attributes_state := none, parent_space_data := none, shape_data := none }

def c1_mod : MopModule :=
  { node_name := 10, parent_mod := none, parent_joint := none, deform_joints := [],
    controllers := [1], placement_group := 2, is_built := false }

/-- Externals for the counterexample: the space-switching service creates
one constraint node (name 99) for the configured controller; everything
else creates nothing. -/
def c1_ext : Externals :=
  { pre_build_new := [], post_build_new := [], pre_unbuild_new := [],
    post_unbuild_new := [],
    module_new := fun _ => [],
    space_new := fun c => if c = 1 then [c1_sp_node] else [],
    capture_attr_state := fun _ => "\x7b\x7d",
    capture_shape := fun _ => none }

def c1_st : RigState :=
  { is_built := false, modules := [c1_mod], scene := [c1_ctl, c1_pl] }

/-- Claim C1 is false as stated: on a rig with one controller whose
well-formed `parent_space_data` blob makes the second build pass create a
space-switching node (name 99), `build()` then `unbuild()` completes
normally but leaves the scene's node set as [1, 2, 99] where the pre-build
set was [1, 2] — the node created while establishing parent-space switching
is created after the node-set diff was taken, is never tagged, and survives
the unbuild. -/
theorem c1_counterexample :
    ((build c1_ext c1_st).bind (unbuild c1_ext)).map (fun s => node_ids s.scene) =
      Except.ok [1, 2, 99] ∧
    node_ids c1_st.scene = [1, 2] ∧
    (99 ∈ ([1, 2, 99] : List Nat)) ∧ 99 ∉ ([1, 2] : List Nat) :=
  ⟨by rfl, by rfl, by decide, by decide⟩

/-- The stored shape blob agrees with what the shape capture would produce
(trivially so when the capture raises and is swallowed). -/
def shapeOK (o : Option String) (n : SceneNode) : Bool :=
  match o with
  | none => true
  | some sd => decide (n.shape_data = some sd)

theorem scene_node_eta_shape {n : SceneNode} {sd : String} (h : n.shape_data = some sd) :
    ({ n with shape_data := some sd } : SceneNode) = n := by
  cases n
  simp_all

theorem scene_node_eta_attr {n : SceneNode} {v : String}
    (h : n.attributes_state = some v) :
    ({ n with attributes_state := some v } : SceneNode) = n := by
  cases n
  simp_all

theorem scene_node_eta_vis {n : SceneNode} (h : n.visibility = true) :
    ({ n with visibility := true } : SceneNode) = n := by
  cases n
  simp_all

theorem mop_eta_built {m : MopModule} (h : m.is_built = false) :
    ({ m with is_built := false } : MopModule) = m := by
  cases m
  simp_all

theorem setShapeBlob_id {c : Nat} {sd : String} {s : List SceneNode}
    (h : ∀ n ∈ s, n.nid = c → n.shape_data = some sd) :
    setShapeBlob c sd s = s := by
  refine (List.map_congr_left ?_).trans (List.map_id s)
  intro n hn
  by_cases hc : n.nid = c
  · rw [if_pos hc]
    exact scene_node_eta_shape (h n hn hc)
  · rw [if_neg hc]
    rfl

theorem setAttrStateBlob_id {c : Nat} {v : String} {s : List SceneNode}
    (h : ∀ n ∈ s, n.nid = c → n.attributes_state = some v) :
    setAttrStateBlob c v s = s := by
  refine (List.map_congr_left ?_).trans (List.map_id s)
  intro n hn
  by_cases hc : n.nid = c
  · rw [if_pos hc]
    exact scene_node_eta_attr (h n hn hc)
  · rw [if_neg hc]
    rfl

theorem setVisibility_true_id {c : Nat} {s : List SceneNode}
    (h : ∀ n ∈ s, n.nid = c → n.visibility = true) :
    setVisibility c true s = s := by
  refine (List.map_congr_left ?_).trans (List.map_id s)
  intro n hn
  by_cases hc : n.nid = c
  · rw [if_pos hc]
    exact scene_node_eta_vis (h n hn hc)
  · rw [if_neg hc]
    rfl

theorem getNode_isSome {s : List SceneNode} {c : Nat} (h : ∃ n ∈ s, n.nid = c) :
    ∃ n, getNode s c = some n := by
  obtain ⟨n, hn, hnc⟩ := h
  have : (s.find? (fun x => x.nid = c)).isSome :=
    List.find?_isSome.mpr ⟨n, hn, by simp [hnc]⟩
  exact Option.isSome_iff_exists.mp this

/-- A capture that merely rewrites what is already stored is the identity on
the tracked scene. -/
theorem capture_ctl_id {ext : Externals} {c : Nat} {s : List SceneNode}
    (hex : ∃ n ∈ s, n.nid = c)
    (hsh : ∀ n ∈ s, n.nid = c → shapeOK (ext.capture_shape c) n = true)
    (hat : ∀ n ∈ s, n.nid = c →
      n.attributes_state = some (ext.capture_attr_state c)) :
    capture_ctl ext c s = Except.ok s := by
  obtain ⟨n0, hg⟩ := getNode_isSome hex
  unfold capture_ctl
  cases hcs : ext.capture_shape c with
  | none =>
    simp only [hg]
    rw [setAttrStateBlob_id hat]
  | some sd =>
    have hset : setShapeBlob c sd s = s := by
      refine setShapeBlob_id ?_
      intro n hn hc
      have := hsh n hn hc
      rw [hcs] at this
      simpa [shapeOK] using this
    simp only [hg, hset]
    rw [setAttrStateBlob_id hat]

theorem capture_ctl_loop_id {ext : Externals} :
    ∀ {ctls : List Nat} {s : List SceneNode},
      (∀ c ∈ ctls, (∃ n ∈ s, n.nid = c) ∧
        (∀ n ∈ s, n.nid = c → shapeOK (ext.capture_shape c) n = true ∧
          n.attributes_state = some (ext.capture_attr_state c))) →
      capture_ctl_loop ext ctls s = Except.ok s := by
  intro ctls
  induction ctls with
  | nil => intro s _; rfl
  | cons c rest ih =>
    intro s h
    obtain ⟨hex, hprop⟩ := h c (List.mem_cons_self c rest)
    have hc : capture_ctl ext c s = Except.ok s :=
      capture_ctl_id hex (fun n hn hnc => (hprop n hn hnc).1)
        (fun n hn hnc => (hprop n hn hnc).2)
    unfold capture_ctl_loop
    rw [hc]
    exact ih (fun c2 hc2 => h c2 (List.mem_cons_of_mem _ hc2))

theorem capture_pass_id {ext : Externals} :
    ∀ {mods : List MopModule} {s : List SceneNode},
      (∀ m ∈ mods, ∀ c ∈ m.controllers, (∃ n ∈ s, n.nid = c) ∧
        (∀ n ∈ s, n.nid = c → shapeOK (ext.capture_shape c) n = true ∧
          n.attributes_state = some (ext.capture_attr_state c))) →
      (∀ m ∈ mods, (∃ n ∈ s, n.nid = m.placement_group) ∧
        (∀ n ∈ s, n.nid = m.placement_group → n.visibility = true)) →
      capture_pass ext mods s = Except.ok s := by
  intro mods
  induction mods with
  | nil => intro s _ _; rfl
  | cons m rest ih =>
    intro s hctl hpl
    have hloop : capture_ctl_loop ext m.controllers s = Except.ok s :=
      capture_ctl_loop_id (hctl m (List.mem_cons_self m rest))
    obtain ⟨hex, hvis⟩ := hpl m (List.mem_cons_self m rest)
    obtain ⟨n0, hg⟩ := getNode_isSome hex
    unfold capture_pass
    rw [hloop]
    simp only [hg]
    rw [setVisibility_true_id hvis]
    exact ih (fun m2 hm2 => hctl m2 (List.mem_cons_of_mem _ hm2))
      (fun m2 hm2 => hpl m2 (List.mem_cons_of_mem _ hm2))

theorem reset_flags_id : ∀ (mods : List MopModule) {modules : List MopModule},
    (∀ x ∈ modules, x.is_built = false) → reset_flags mods modules = modules := by
  intro mods
  induction mods with
  | nil => intro modules _; rfl
  | cons m rest ih =>
    intro modules h
    unfold reset_flags
    have hmap : (modules.map (fun x =>
        if x.node_name = m.node_name then { x with is_built := false } else x)) =
        modules := by
      refine (List.map_congr_left ?_).trans (List.map_id modules)
      intro x hx
      by_cases hc : x.node_name = m.node_name
      · rw [if_pos hc]
        exact mop_eta_built (h x hx)
      · rw [if_neg hc]
        rfl
    rw [hmap]
    exact ih h

/-- Claim C7: `unbuild()` on an already-unbuilt rig — no node carries the
`is_build_node` marker, the rig's and all modules' flags are false, the
placement groups are already visible and every controller's stored blobs
already agree with what the captures would write — deletes nothing, raises
nothing and leaves the rig state exactly as it was. -/
theorem c7_unbuild_idempotent (ext : Externals) (st : RigState)
    (h0 : st.is_built = false)
    (h1 : ∀ m ∈ st.modules, m.is_built = false)
    (h2 : ∀ n ∈ st.scene, n.is_build_node = false)
    (h3 : ext.pre_unbuild_new = []) (h4 : ext.post_unbuild_new = [])
    (h5 : ∀ m ∈ st.modules, ∀ c ∈ m.controllers,
      (∃ n ∈ st.scene, n.nid = c) ∧
      (∀ n ∈ st.scene, n.nid = c →
        shapeOK (ext.capture_shape c) n = true ∧
        n.attributes_state = some (ext.capture_attr_state c)))
    (h6 : ∀ m ∈ st.modules, (∃ n ∈ st.scene, n.nid = m.placement_group) ∧
      (∀ n ∈ st.scene, n.nid = m.placement_group → n.visibility = true)) :
    unbuild ext st = Except.ok st := by
  obtain ⟨b, sm, sc⟩ := st
  simp only at h0 h1 h2 h5 h6
  subst h0
  have hperm := rig_modules_perm (mopParent sm) sm
  have hcap : capture_pass ext (rig_modules (mopParent sm) sm) sc = Except.ok sc := by
    refine capture_pass_id ?_ ?_
    · intro m hm
      exact h5 m (hperm.mem_iff.mp hm)
    · intro m hm
      exact h6 m (hperm.mem_iff.mp hm)
  have hflags : reset_flags (rig_modules (mopParent sm) sm) sm = sm :=
    reset_flags_id _ h1
  have hbn : build_nodes sc = [] := build_nodes_nil_of_unmarked h2
  unfold unbuild
  rw [h3, List.append_nil]
  simp only [hcap]
  rw [hbn, hflags, h4, List.append_nil]
  have hfil : (sc.filter (fun n => decide (n.nid ∉ ([] : List Nat)))) = sc :=
    List.filter_eq_self.mpr (by intro a _; simp)
  rw [hfil]

def c7_ctl : SceneNode :=
  { nid := 1, is_build_node := false, visibility := true,
    attributes_state := some ("\x7b\x7d"), parent_space_data := none,
    shape_data := none }

def c7_pl : SceneNode :=
  { nid := 2, is_build_node := false, visibility := true,
    attributes_state := none, parent_space_data := none, shape_data := none }

def c7_mod : MopModule :=
  { node_name := 10, parent_mod := none, parent_joint := none, deform_joints := [],
    controllers := [1], placement_group := 2, is_built := false }

def c7_ext : Externals :=
  { pre_build_new := [], post_build_new := [], pre_unbuild_new := [],
    post_unbuild_new := [],
    module_new := fun _ => [], space_new := fun _ => [],
    capture_attr_state := fun _ => "\x7b\x7d",
    capture_shape := fun _ => none }

def c7_st : RigState :=
  { is_built := false, modules := [c7_mod], scene := [c7_ctl, c7_pl] }

theorem c7_witness :
    c7_st.is_built = false ∧ unbuild c7_ext c7_st = Except.ok c7_st :=
  ⟨rfl,
   c7_unbuild_idempotent c7_ext c7_st rfl (by decide) (by decide) rfl rfl
     (by decide) (by decide)⟩

def rt_new : SceneNode :=
  { nid := 50, is_build_node := false, visibility := true,
    attributes_state := none, parent_space_data := none, shape_data := none }

def rt_ctl : SceneNode :=
  { nid := 1, is_build_node := false, visibility := true,
    attributes_state := some ("\x7b\x7d"), parent_space_data := none,
    shape_data := none }

def rt_pl : SceneNode :=
  { nid := 2, is_build_node := false, visibility := true,
    attributes_state := none, parent_space_data := none, shape_data := none }

def rt_mod : MopModule :=
  { node_name := 10, parent_mod := none, parent_joint := none, deform_joints := [],
    controllers := [1], placement_group := 2, is_built := false }

/-- Round-trip externals: the module's `_build` creates one node (name 50),
hooks and the space service create nothing. -/
def rt_ext : Externals :=
  { pre_build_new := [], post_build_new := [], pre_unbuild_new := [],
    post_unbuild_new := [],
    module_new := fun _ => [rt_new], space_new := fun _ => [],
    capture_attr_state := fun _ => "\x7b\x7d",
    capture_shape := fun _ => none }

def rt_st : RigState :=
  { is_built := false, modules := [rt_mod], scene := [rt_ctl, rt_pl] }

def rt_st1 : RigState :=
  match build rt_ext rt_st with
  | Except.ok s => s
  | Except.error _ => rt_st

def rt_st2 : RigState :=
  match unbuild rt_ext rt_st1 with
  | Except.ok s => s
  | Except.error _ => rt_st1

theorem c9_witness :
    build rt_ext rt_st = Except.ok rt_st1 ∧ rt_st1.is_built = true :=
  ⟨by rfl, (c9_build_postconditions rt_ext rt_st rt_st1 (by rfl)).1⟩

theorem c8_witness :
    unbuild rt_ext rt_st1 = Except.ok rt_st2 ∧
    (node_ids rt_st1.scene).Nodup ∧ rt_st2.is_built = false :=
  ⟨by rfl, by decide,
   (c8_unbuild_postconditions rt_ext rt_st1 rt_st2 (by rfl) rfl rfl (by decide)).1⟩

theorem c1_witness :
    build rt_ext rt_st = Except.ok rt_st1 ∧
    unbuild rt_ext rt_st1 = Except.ok rt_st2 ∧
    (50 ∈ node_ids rt_st2.scene ↔ 50 ∈ node_ids rt_st.scene) :=
  ⟨by rfl, by rfl,
   c1_round_trip_amended rt_ext rt_st rt_st1 rt_st2 (by rfl) (by rfl)
     rfl rfl rfl rfl (fun _ => rfl) (by decide)
     (by
       intro mn n hn
       simp only [rt_ext] at hn
       rw [List.mem_singleton] at hn
       subst hn
       rfl)
     50⟩

def c4_ctl : SceneNode :=
  { nid := 1, is_build_node := false, visibility := true,
    attributes_state := none, parent_space_data := some ("\x7bbad json"),
    shape_data := none }

def c4_ctl_absent : SceneNode :=
  { nid := 1, is_build_node := false, visibility := true,
    attributes_state := none, parent_space_data := none, shape_data := none }

def c4_pl : SceneNode :=
  { nid := 2, is_build_node := false, visibility := true,
    attributes_state := none, parent_space_data := none, shape_data := none }

def c4_mod : MopModule :=
  { node_name := 10, parent_mod := none, parent_joint := none, deform_joints := [],
    controllers := [1], placement_group := 2, is_built := false }

def c4_ext : Externals :=
  { pre_build_new := [], post_build_new := [], pre_unbuild_new := [],
    post_unbuild_new := [],
    module_new := fun _ => [], space_new := fun _ => [],
    capture_attr_state := fun _ => "\x7b\x7d",
    capture_shape := fun _ => none }

def c4_st : RigState :=
  { is_built := false, modules := [c4_mod], scene := [c4_ctl, c4_pl] }

def c4_st_absent : RigState :=
  { is_built := false, modules := [c4_mod], scene := [c4_ctl_absent, c4_pl] }

/-- Claim C4 (code bug): the build's parent-space pass guards only against
falsy blobs (`if not parent_spaces: continue`) and against decoded values
that are not objects (`hasattr(spaces, 'get')`); a blob that is not valid
JSON at all reaches `json.loads`, which raises, and nothing catches it —
the build aborts, contradicting the spec's failure policy (and the source's
own comment "In case serialized data is bad", which sits after the point
where the exception is thrown).  On the same rig with the blob absent, the
same build completes. -/
theorem c4_malformed_blob_aborts :
    build c4_ext c4_st = Except.error ("json.loads: invalid JSON") ∧
    c4_ctl.parent_space_data = some ("\x7bbad json") ∧
    (match build c4_ext c4_st_absent with
      | Except.ok _ => true
      | Except.error _ => false) = true :=
  ⟨by rfl, rfl, by rfl⟩
